import Mathlib

/-!
# Verification of the fat pointer hack library

Shallow embedding of the two source files of the repository
(src/lib.rs and src/refext.rs) and proofs of the spec claims.

The repository attaches a machine-word of metadata to a reference by
storing it in the length word of a slice-like wide reference.  The
embedding models, for the 64-bit target (target_pointer_width = "64",
the configuration under which all five Metadata impls are compiled):

* the word-sized slot type Tag (Rust struct Tag(usize));
* the Metadata trait (pack / unpack) and its five impls: usize,
  the word-width byte array, f64, f32 and char;
* a fat reference value as the pair (address, slot word) that a
  reference to FatPointee is at runtime, plus a heap to read pointee
  content through addresses;
* the FatRefExt, FatRefMutExt and RefExt operations.

Machine integers are Nat with explicit truncation by percent 2 pow w
where the Rust code performs a narrowing cast; floating point values
are modelled by their IEEE bit patterns, which is exactly the level at
which the codec and the claims speak (to_bits / from_bits are mutually
inverse bijections between f64 values and 64-bit patterns, NaN payloads
included).
-/

/-- Pointer width in bits of the 64-bit target. -/
def wordBits : Nat := 64

/-- Rust core mem size_of usize in bytes on the 64-bit target. -/
def wordBytes : Nat := 8

/-- Rust pub struct Tag(usize): the word-sized slot holding packed metadata
(lib.rs line 122). -/
structure Tag where
  val : Nat
deriving DecidableEq, Repr

/-- Rust usize on the 64-bit target.  The representable values are those
with val below 2 pow 64. -/
structure Usize where
  val : Nat
deriving DecidableEq, Repr

/-- Rust byte array of word width, the type of the Metadata impl for
the word-width byte array (lib.rs line 141).  Representable values have
exactly wordBytes entries, each below 256. -/
structure U8Array where
  bytes : List Nat
deriving DecidableEq, Repr

/-- Rust f64 modelled by its IEEE 754 bit pattern, as produced by
to_bits.  Representable values have bits below 2 pow 64. -/
structure F64 where
  bits : Nat
deriving DecidableEq, Repr

/-- Rust f32 modelled by its IEEE 754 bit pattern, as produced by
to_bits.  Representable values have bits below 2 pow 32. -/
structure F32 where
  bits : Nat
deriving DecidableEq, Repr

/-- Rust char modelled by its Unicode scalar value, which is exactly the
u32 that core mem transmute of a char yields (lib.rs line 173). -/
structure CharV where
  scalar : Nat
deriving DecidableEq, Repr

/-- The representable values of Rust char: Unicode scalar values, that is
code points below 0x110000 that are not surrogates. -/
def isValidScalar (n : Nat) : Prop :=
  n < 0x110000 ∧ ¬(0xD800 ≤ n ∧ n ≤ 0xDFFF)

instance (n : Nat) : Decidable (isValidScalar n) := by
  unfold isValidScalar
  infer_instance

/-- Little-endian value of a byte list: the meaning of
core mem transmute from the byte array to usize on the
little-endian 64-bit target (lib.rs line 143). -/
def bytesToNat : List Nat → Nat
  | [] => 0
  | b :: rest => b + 2 ^ 8 * bytesToNat rest

/-- Little-endian byte decomposition of a word, k bytes wide: the meaning
of core mem transmute from usize to the byte array (lib.rs line 146). -/
def natToBytes : Nat → Nat → List Nat
  | 0, _ => []
  | k + 1, n => n % 2 ^ 8 :: natToBytes k (n / 2 ^ 8)

/-- Rust pub trait Metadata (lib.rs lines 124 to 130): the codec
capability, a pack / unpack pair to and from the word-sized Tag. -/
class Metadata (M : Type) where
  pack : M → Tag
  unpack : Tag → M

/-- impl Metadata for usize (lib.rs lines 132 to 139): pack is Tag(self),
unpack is val.0. -/
instance : Metadata Usize where
  pack v := ⟨v.val⟩
  unpack t := ⟨t.val⟩

/-- impl Metadata for the word-width byte array (lib.rs lines 141 to 148):
pack and unpack are transmutes between the byte array and usize. -/
instance : Metadata U8Array where
  pack a := ⟨bytesToNat a.bytes⟩
  unpack t := ⟨natToBytes wordBytes t.val⟩

/-- impl Metadata for f64, 64-bit targets only (lib.rs lines 150 to 158):
pack is Tag(self.to_bits() as usize) and unpack is
from_bits(val.0 as u64); both casts are width-preserving on this
target, the cast to u64 truncates to 64 bits. -/
instance : Metadata F64 where
  pack v := ⟨v.bits⟩
  unpack t := ⟨t.val % 2 ^ 64⟩

/-- impl Metadata for f32 (lib.rs lines 160 to 168): pack is
Tag(self.to_bits() as usize), a zero extension of the 32-bit pattern,
and unpack is from_bits(val.0 as u32), truncating to the low 32 bits. -/
instance : Metadata F32 where
  pack v := ⟨v.bits⟩
  unpack t := ⟨t.val % 2 ^ 32⟩

/-- impl Metadata for char (lib.rs lines 170 to 178): pack transmutes the
char to its u32 scalar value and zero-extends to usize; unpack truncates
the word to u32 (val.0 as u32) and transmutes back. -/
instance : Metadata CharV where
  pack c := ⟨c.scalar⟩
  unpack t := ⟨t.val % 2 ^ 32⟩

/-- A plain (thin) Rust reference to P: just an address.  Pointee content
is read through a heap, see Heap and readRef. -/
structure PlainRef (P : Type) where
  addr : Nat
deriving DecidableEq, Repr

/-- The runtime value of Rust type FatRef, namely a reference to the
unsized FatPointee (lib.rs lines 106 and 116 to 120): an (address,
slot word) pair, where the slot is the reported slice length. -/
structure FatRef (P M : Type) where
  addr : Nat
  slot : Nat
deriving DecidableEq, Repr

/-- The runtime value of Rust type FatRefMut (lib.rs line 109): same
representation as FatRef, with exclusive borrow semantics. -/
structure FatRefMut (P M : Type) where
  addr : Nat
  slot : Nat
deriving DecidableEq, Repr

/-- A heap assigning to every address a P value, used to read pointee
content behind a reference.  No operation of the library writes to it. -/
def Heap (P : Type) := Nat → P

/-- Dereference a plain reference: read the heap at its address. -/
def readRef {P : Type} (h : Heap P) (r : PlainRef P) : P :=
  h r.addr

/-- FatRefExt::from_ref (lib.rs lines 196 to 201): build the wide
reference from_raw_parts(thin_ref as pointer, tag.pack().0); address
component is the address of thin_ref, length component is the packed
tag word. -/
def FatRef.from_ref {P M : Type} [Metadata M] (thin_ref : PlainRef P)
    (tag : M) : FatRef P M :=
  ⟨thin_ref.addr, (Metadata.pack tag).val⟩

/-- FatRefExt::to_plain (lib.rs lines 204 to 206): reborrow the pointee
field, recovering the thin reference at the same address. -/
def FatRef.to_plain {P M : Type} (f : FatRef P M) : PlainRef P :=
  ⟨f.addr⟩

/-- FatRefExt::tag (lib.rs lines 209 to 211): read the slice length word
(self.unsize.len()) and unpack it. -/
def FatRef.tag {P M : Type} [Metadata M] (f : FatRef P M) : M :=
  Metadata.unpack ⟨f.slot⟩

/-- FatRefExt::set_tag (lib.rs lines 214 to 216): overwrite self with
from_ref(self.to_plain(), tag).  Modelled by returning the new
reference value. -/
def FatRef.set_tag {P M : Type} [Metadata M] (f : FatRef P M)
    (tag : M) : FatRef P M :=
  FatRef.from_ref f.to_plain tag

/-- FatRefMutExt::from_ref_mut (lib.rs lines 233 to 238): the exclusive
analogue of from_ref, built with from_raw_parts_mut. -/
def FatRefMut.from_ref_mut {P M : Type} [Metadata M]
    (thin_ref : PlainRef P) (tag : M) : FatRefMut P M :=
  ⟨thin_ref.addr, (Metadata.pack tag).val⟩

/-- FatRefMutExt::to_plain_mut (lib.rs lines 240 to 242): reborrow the
pointee field mutably, recovering the thin reference. -/
def FatRefMut.to_plain_mut {P M : Type} (f : FatRefMut P M) : PlainRef P :=
  ⟨f.addr⟩

/-- RefExt::tag for shared references (refext.rs lines 11 to 16): the
ambient sugar, defined as FatRef::from_ref(self, metadata). -/
def RefExt.tag {P M : Type} [Metadata M] (self : PlainRef P)
    (metadata : M) : FatRef P M :=
  FatRef.from_ref self metadata

/-- RefExt::tag for exclusive references (refext.rs lines 18 to 23),
defined as FatRefMut::from_ref_mut(self, metadata). -/
def RefExt.tagMut {P M : Type} [Metadata M] (self : PlainRef P)
    (metadata : M) : FatRefMut P M :=
  FatRefMut.from_ref_mut self metadata

/-! ## Round-trip lemmas for the five codecs -/

/-- Decomposing the little-endian value of a byte list recovers the list,
provided every entry is a byte. -/
theorem natToBytes_bytesToNat (l : List Nat) (hb : ∀ b ∈ l, b < 2 ^ 8) :
    natToBytes l.length (bytesToNat l) = l := by
  induction l with
  | nil => rfl
  | cons b rest ih =>
    have hb0 : b < 2 ^ 8 := hb b (List.mem_cons_self b rest)
    have hrest : ∀ x ∈ rest, x < 2 ^ 8 := fun x hx => hb x (List.mem_cons_of_mem b hx)
    show (b + 2 ^ 8 * bytesToNat rest) % 2 ^ 8 ::
        natToBytes rest.length ((b + 2 ^ 8 * bytesToNat rest) / 2 ^ 8) = b :: rest
    have hm : (b + 2 ^ 8 * bytesToNat rest) % 2 ^ 8 = b := by omega
    have hd : (b + 2 ^ 8 * bytesToNat rest) / 2 ^ 8 = bytesToNat rest := by omega
    rw [hm, hd, ih hrest]

/-- The usize codec is the identity on the word. -/
theorem usize_unpack_pack (v : Usize) :
    Metadata.unpack (Metadata.pack v) = v := rfl

/-- The byte-array codec round-trips on representable arrays. -/
theorem u8array_unpack_pack (v : U8Array) (hlen : v.bytes.length = wordBytes)
    (hb : ∀ b ∈ v.bytes, b < 2 ^ 8) :
    Metadata.unpack (Metadata.pack v) = v := by
  have h1 : natToBytes wordBytes (bytesToNat v.bytes) = v.bytes := by
    rw [← hlen]; exact natToBytes_bytesToNat v.bytes hb
  show U8Array.mk (natToBytes wordBytes (bytesToNat v.bytes)) = v
  rw [h1]

/-- The f64 codec round-trips bit-for-bit on every 64-bit pattern. -/
theorem f64_unpack_pack (v : F64) (h : v.bits < 2 ^ 64) :
    Metadata.unpack (Metadata.pack v) = v := by
  cases v with
  | mk bits =>
    have hb : bits < 2 ^ 64 := h
    show F64.mk (bits % 2 ^ 64) = F64.mk bits
    simp only [F64.mk.injEq]
    omega

/-- The f32 codec round-trips bit-for-bit on every 32-bit pattern. -/
theorem f32_unpack_pack (v : F32) (h : v.bits < 2 ^ 32) :
    Metadata.unpack (Metadata.pack v) = v := by
  cases v with
  | mk bits =>
    have hb : bits < 2 ^ 32 := h
    show F32.mk (bits % 2 ^ 32) = F32.mk bits
    simp only [F32.mk.injEq]
    omega

/-- The char codec round-trips on every Unicode scalar value. -/
theorem charv_unpack_pack (v : CharV) (h : isValidScalar v.scalar) :
    Metadata.unpack (Metadata.pack v) = v := by
  cases v with
  | mk s =>
    have hb : s < 0x110000 := h.1
    show CharV.mk (s % 2 ^ 32) = CharV.mk s
    simp only [CharV.mk.injEq]
    omega

/-! ## Claim theorems -/

/-- C1: for every supported metadata type (usize, the word-width byte
array, f64, f32, char) and every representable value v of that type,
unpack (pack v) = v.  The floating codecs are stated over every bit
pattern of the respective width, so the identity is bit-for-bit and in
particular covers NaN payloads, signed zero and the infinities. -/
theorem C1_codec_roundtrip :
    (∀ v : Usize, v.val < 2 ^ 64 →
        Metadata.unpack (Metadata.pack v) = v) ∧
    (∀ v : U8Array, v.bytes.length = wordBytes → (∀ b ∈ v.bytes, b < 2 ^ 8) →
        Metadata.unpack (Metadata.pack v) = v) ∧
    (∀ v : F64, v.bits < 2 ^ 64 →
        Metadata.unpack (Metadata.pack v) = v) ∧
    (∀ v : F32, v.bits < 2 ^ 32 →
        Metadata.unpack (Metadata.pack v) = v) ∧
    (∀ v : CharV, isValidScalar v.scalar →
        Metadata.unpack (Metadata.pack v) = v) :=
  ⟨fun v _ => usize_unpack_pack v,
   fun v hlen hb => u8array_unpack_pack v hlen hb,
   fun v h => f64_unpack_pack v h,
   fun v h => f32_unpack_pack v h,
   fun v h => charv_unpack_pack v h⟩

/-- Witness for C1 at concrete representable values; the f64 inputs are
the bit patterns of a quiet NaN and of negative zero, the f32 input is
the bit pattern of positive infinity. -/
theorem C1_codec_roundtrip_witness :
    Metadata.unpack (Metadata.pack (Usize.mk 9001)) = Usize.mk 9001 ∧
    Metadata.unpack (Metadata.pack (U8Array.mk [1, 2, 3, 4, 5, 6, 7, 255])) =
      U8Array.mk [1, 2, 3, 4, 5, 6, 7, 255] ∧
    Metadata.unpack (Metadata.pack (F64.mk 0x7FF8000000000000)) =
      F64.mk 0x7FF8000000000000 ∧
    Metadata.unpack (Metadata.pack (F64.mk 0x8000000000000000)) =
      F64.mk 0x8000000000000000 ∧
    Metadata.unpack (Metadata.pack (F32.mk 0x7F800000)) = F32.mk 0x7F800000 ∧
    Metadata.unpack (Metadata.pack (CharV.mk 0x2665)) = CharV.mk 0x2665 :=
  ⟨C1_codec_roundtrip.1 (Usize.mk 9001) (by decide),
   C1_codec_roundtrip.2.1 (U8Array.mk [1, 2, 3, 4, 5, 6, 7, 255])
     (by decide) (by decide),
   C1_codec_roundtrip.2.2.1 (F64.mk 0x7FF8000000000000) (by decide),
   C1_codec_roundtrip.2.2.1 (F64.mk 0x8000000000000000) (by decide),
   C1_codec_roundtrip.2.2.2.1 (F32.mk 0x7F800000) (by decide),
   C1_codec_roundtrip.2.2.2.2 (CharV.mk 0x2665) (by decide)⟩

/-- C2: for every pointee type P with plain reference p and every
representable metadata value of each of the five codec types, the tag
read back from a freshly constructed fat reference equals the metadata
that was packed in. -/
theorem C2_tag_from_ref (P : Type) (p : PlainRef P) :
    (∀ v : Usize, v.val < 2 ^ 64 → (FatRef.from_ref p v).tag = v) ∧
    (∀ v : U8Array, v.bytes.length = wordBytes → (∀ b ∈ v.bytes, b < 2 ^ 8) →
        (FatRef.from_ref p v).tag = v) ∧
    (∀ v : F64, v.bits < 2 ^ 64 → (FatRef.from_ref p v).tag = v) ∧
    (∀ v : F32, v.bits < 2 ^ 32 → (FatRef.from_ref p v).tag = v) ∧
    (∀ v : CharV, isValidScalar v.scalar → (FatRef.from_ref p v).tag = v) :=
  ⟨fun v _ => usize_unpack_pack v,
   fun v hlen hb => u8array_unpack_pack v hlen hb,
   fun v h => f64_unpack_pack v h,
   fun v h => f32_unpack_pack v h,
   fun v h => charv_unpack_pack v h⟩

/-- Witness for C2 at a concrete reference and concrete metadata values. -/
theorem C2_tag_from_ref_witness :
    (FatRef.from_ref (PlainRef.mk (P := Nat) 4096) (Usize.mk 9001)).tag =
      Usize.mk 9001 ∧
    (FatRef.from_ref (PlainRef.mk (P := Nat) 4096) (F32.mk 0x3F666666)).tag =
      F32.mk 0x3F666666 ∧
    (FatRef.from_ref (PlainRef.mk (P := Nat) 4096) (CharV.mk 0x2665)).tag =
      CharV.mk 0x2665 :=
  ⟨(C2_tag_from_ref Nat (PlainRef.mk 4096)).1 (Usize.mk 9001) (by decide),
   (C2_tag_from_ref Nat (PlainRef.mk 4096)).2.2.2.1 (F32.mk 0x3F666666)
     (by decide),
   (C2_tag_from_ref Nat (PlainRef.mk 4096)).2.2.2.2 (CharV.mk 0x2665)
     (by decide)⟩

/-- C3: recovering the plain reference from a freshly constructed fat
reference yields the address of the original reference, and reading the
heap through it yields the original pointee content; the metadata does
not affect the recovered reference. -/
theorem C3_to_plain_from_ref (P M : Type) [Metadata M] (h : Heap P)
    (p : PlainRef P) (m : M) :
    (FatRef.from_ref p m).to_plain.addr = p.addr ∧
    readRef h (FatRef.from_ref p m).to_plain = readRef h p ∧
    (FatRef.from_ref p m).to_plain = p :=
  ⟨rfl, rfl, rfl⟩

/-- C4: re-tagging a fat reference built over p replaces the metadata and
changes nothing else.  The first conjunct, generic over any codec, shows
the result is exactly from_ref p m2: in particular the address component
and the pointee content behind the reference are unchanged and the slot
is the packed new metadata.  The remaining conjuncts show tag reads back
m2 for each of the five codecs on representable values. -/
theorem C4_set_tag (P : Type) (h : Heap P) (p : PlainRef P) :
    (∀ (M : Type) (_inst : Metadata M) (m1 m2 : M),
        ((FatRef.from_ref p m1).set_tag m2).to_plain.addr = p.addr ∧
        readRef h ((FatRef.from_ref p m1).set_tag m2).to_plain = readRef h p ∧
        ((FatRef.from_ref p m1).set_tag m2).slot = (Metadata.pack m2).val ∧
        (FatRef.from_ref p m1).set_tag m2 = FatRef.from_ref p m2) ∧
    (∀ m1 m2 : Usize, m2.val < 2 ^ 64 →
        ((FatRef.from_ref p m1).set_tag m2).tag = m2) ∧
    (∀ m1 m2 : U8Array, m2.bytes.length = wordBytes →
        (∀ b ∈ m2.bytes, b < 2 ^ 8) →
        ((FatRef.from_ref p m1).set_tag m2).tag = m2) ∧
    (∀ m1 m2 : F64, m2.bits < 2 ^ 64 →
        ((FatRef.from_ref p m1).set_tag m2).tag = m2) ∧
    (∀ m1 m2 : F32, m2.bits < 2 ^ 32 →
        ((FatRef.from_ref p m1).set_tag m2).tag = m2) ∧
    (∀ m1 m2 : CharV, isValidScalar m2.scalar →
        ((FatRef.from_ref p m1).set_tag m2).tag = m2) :=
  ⟨fun _ _ _ _ => ⟨rfl, rfl, rfl, rfl⟩,
   fun _ m2 _ => usize_unpack_pack m2,
   fun _ m2 hlen hb => u8array_unpack_pack m2 hlen hb,
   fun _ m2 hb => f64_unpack_pack m2 hb,
   fun _ m2 hb => f32_unpack_pack m2 hb,
   fun _ m2 hb => charv_unpack_pack m2 hb⟩

/-- Witness for C4 at a concrete heap, reference and metadata values. -/
theorem C4_set_tag_witness :
    ((FatRef.from_ref (PlainRef.mk (P := Nat) 4096) (Usize.mk 9001)).set_tag
        (Usize.mk 1337)).to_plain.addr = 4096 ∧
    ((FatRef.from_ref (PlainRef.mk (P := Nat) 4096) (Usize.mk 9001)).set_tag
        (Usize.mk 1337)).tag = Usize.mk 1337 :=
  ⟨((C4_set_tag Nat (fun _ => 0) (PlainRef.mk 4096)).1 Usize
      inferInstance (Usize.mk 9001) (Usize.mk 1337)).1,
   (C4_set_tag Nat (fun _ => 0) (PlainRef.mk 4096)).2.1 (Usize.mk 9001)
      (Usize.mk 1337) (by decide)⟩

/-- C5: the ambient extension method on plain references is exactly the
corresponding construction function: RefExt tag on a shared reference
is from_ref and on an exclusive reference is from_ref_mut, for every
pointee type, codec and metadata value. -/
theorem C5_refext_is_from_ref (P M : Type) [Metadata M] (p : PlainRef P)
    (m : M) :
    RefExt.tag p m = FatRef.from_ref p m ∧
    RefExt.tagMut p m = FatRefMut.from_ref_mut p m :=
  ⟨rfl, rfl⟩

/-- The five types that receive a Metadata impl in lib.rs. -/
inductive MetaTy
  | usize
  | u8array
  | f64
  | f32
  | char
deriving DecidableEq, Repr

/-- Rust size_of in bytes of each metadata type, on a target whose
pointers are w bits wide. -/
def MetaTy.size (w : Nat) : MetaTy → Nat
  | .usize => w / 8
  | .u8array => w / 8
  | .f64 => 8
  | .f32 => 4
  | .char => 4

/-- Whether lib.rs compiles a Metadata impl for the type on a target
whose pointers are w bits wide: the cfg target_pointer_width gates of
lib.rs lines 150, 160 and 170; the usize and byte-array impls are
unconditional. -/
def MetaTy.hasImpl (w : Nat) : MetaTy → Bool
  | .usize => true
  | .u8array => true
  | .f64 => w == 64
  | .f32 => w == 32 || w == 64
  | .char => w == 32 || w == 64

/-- C6 counterexample: on the 64-bit target the code compiles a Metadata
impl for f32, whose size is 4 bytes, not the 8-byte machine word; the
claim that every accepted metadata type has size exactly one machine
word is false on the code. -/
theorem C6_counterexample :
    MetaTy.hasImpl 64 MetaTy.f32 = true ∧
    MetaTy.size 64 MetaTy.f32 ≠ 64 / 8 := by
  decide

/-- C6 amended: on both supported targets, a metadata type receives a
codec impl exactly when its size is at most one machine word; the
rejection (f64 on the 32-bit target) happens through cfg gating and
trait resolution, before the program runs. -/
theorem C6_size_gate (w : Nat) (hw : w = 32 ∨ w = 64) (t : MetaTy) :
    MetaTy.hasImpl w t = true ↔ MetaTy.size w t ≤ w / 8 := by
  rcases hw with h | h <;> subst h <;> cases t <;> decide

/-- Witness for C6 amended: f64 on the 32-bit target is rejected, and
indeed its size exceeds the 4-byte word. -/
theorem C6_size_gate_witness :
    MetaTy.hasImpl 32 MetaTy.f64 = false ∧
    ¬MetaTy.size 32 MetaTy.f64 ≤ 32 / 8 :=
  ⟨by decide, fun hle => by
    have h2 := (C6_size_gate 32 (Or.inl rfl) MetaTy.f64).2 hle
    exact absurd h2 (by decide)⟩

/-- C7: every public operation is a total function over its input domain.
Each operation is characterised by an equation valid on all inputs: the
result is always defined, the codomains contain no error value, and the
embedding needed no Option, Except or panic to translate the code. -/
theorem C7_operations_total (P M : Type) [Metadata M] :
    (∀ (p : PlainRef P) (m : M),
        FatRef.from_ref p m = ⟨p.addr, (Metadata.pack m).val⟩) ∧
    (∀ (p : PlainRef P) (m : M),
        FatRefMut.from_ref_mut p m = ⟨p.addr, (Metadata.pack m).val⟩) ∧
    (∀ f : FatRef P M, f.to_plain = ⟨f.addr⟩) ∧
    (∀ f : FatRefMut P M, f.to_plain_mut = ⟨f.addr⟩) ∧
    (∀ f : FatRef P M, f.tag = Metadata.unpack ⟨f.slot⟩) ∧
    (∀ (f : FatRef P M) (m : M),
        f.set_tag m = ⟨f.addr, (Metadata.pack m).val⟩) ∧
    (∀ (p : PlainRef P) (m : M), RefExt.tag p m = FatRef.from_ref p m) ∧
    (∀ (p : PlainRef P) (m : M),
        RefExt.tagMut p m = FatRefMut.from_ref_mut p m) :=
  ⟨fun _ _ => rfl, fun _ _ => rfl, fun _ => rfl, fun _ => rfl,
   fun _ => rfl, fun _ _ => rfl, fun _ _ => rfl, fun _ _ => rfl⟩

/-- The fat shared references reachable through the public API: those
produced by from_ref, closed under set_tag. -/
inductive FatRef.Reachable (P M : Type) [Metadata M] : FatRef P M → Prop
  | from_ref (p : PlainRef P) (m : M) :
      FatRef.Reachable P M (FatRef.from_ref p m)
  | set_tag (f : FatRef P M) (m : M) (hf : FatRef.Reachable P M f) :
      FatRef.Reachable P M (f.set_tag m)

/-- The fat exclusive references reachable through the public API: those
produced by from_ref_mut (the source defines no set_tag on the
exclusive form). -/
inductive FatRefMut.Reachable (P M : Type) [Metadata M] : FatRefMut P M → Prop
  | from_ref_mut (p : PlainRef P) (m : M) :
      FatRefMut.Reachable P M (FatRefMut.from_ref_mut p m)

/-- C8: every fat reference reachable through the public API has a slot
that is the image under pack of some metadata value of the declared
codec type, for the shared and the exclusive form alike. -/
theorem C8_slot_is_packed (P M : Type) [Metadata M] :
    (∀ f : FatRef P M, FatRef.Reachable P M f →
        ∃ m : M, f.slot = (Metadata.pack m).val) ∧
    (∀ f : FatRefMut P M, FatRefMut.Reachable P M f →
        ∃ m : M, f.slot = (Metadata.pack m).val) := by
  constructor
  · intro f hf
    induction hf with
    | from_ref p m => exact ⟨m, rfl⟩
    | set_tag g m hg ih => exact ⟨m, rfl⟩
  · intro f hf
    cases hf with
    | from_ref_mut p m => exact ⟨m, rfl⟩

/-- Witness for C8: a concrete reachable reference, built by from_ref and
then re-tagged, has a packed slot. -/
theorem C8_slot_is_packed_witness :
    ∃ m : Usize,
      ((FatRef.from_ref (PlainRef.mk (P := Nat) 4096) (Usize.mk 9001)).set_tag
        (Usize.mk 1337)).slot = (Metadata.pack m).val :=
  (C8_slot_is_packed Nat Usize).1 _
    (FatRef.Reachable.set_tag _ (Usize.mk 1337)
      (FatRef.Reachable.from_ref (PlainRef.mk 4096) (Usize.mk 9001)))

/-- impl Debug for FatPointee (lib.rs lines 263 to 270): the output of
debug_struct("FatRef") with a pointee field and a tag field, the tag
field printing self.tag().  The functions d and e render the Debug
output of the pointee type and of the metadata type; the pointee is
read from the heap behind the address of the reference. -/
def FatRef.fmt {P M : Type} [Metadata M] (d : P → String) (e : M → String)
    (h : Heap P) (f : FatRef P M) : String :=
  "FatRef \x7b pointee: " ++ d (readRef h f.to_plain) ++
    ", tag: " ++ e f.tag ++ " \x7d"

/-- C9: the debug formatting of a fat reference contains both the debug
representation of the pointee value behind it and that of its current
tag. -/
theorem C9_debug_contains (P M : Type) [Metadata M] (d : P → String)
    (e : M → String) (h : Heap P) (f : FatRef P M) :
    ∃ a b c : String,
      FatRef.fmt d e h f =
        a ++ d (readRef h f.to_plain) ++ b ++ e f.tag ++ c :=
  ⟨"FatRef \x7b pointee: ", ", tag: ", " \x7d", rfl⟩

/-- C10: on the 64-bit target the f32 and char codecs use only the low
32 bits of the slot: pack zero-extends the 32-bit representation, so
the upper 32 bits of the packed word are zero for every representable
value, and unpack reads only the low 32 bits of the slot, so unpack of
s equals unpack of s taken modulo 2 pow 32 for every slot s. -/
theorem C10_low_32_bits :
    (∀ v : F32, v.bits < 2 ^ 32 → (Metadata.pack v).val < 2 ^ 32) ∧
    (∀ c : CharV, isValidScalar c.scalar → (Metadata.pack c).val < 2 ^ 32) ∧
    (∀ t : Tag, (Metadata.unpack t : F32) =
        Metadata.unpack (Tag.mk (t.val % 2 ^ 32))) ∧
    (∀ t : Tag, (Metadata.unpack t : CharV) =
        Metadata.unpack (Tag.mk (t.val % 2 ^ 32))) := by
  refine ⟨fun v hv => hv, fun c hc => ?_, fun t => ?_, fun t => ?_⟩
  · have h1 : c.scalar < 0x110000 := hc.1
    show c.scalar < 2 ^ 32
    omega
  · show F32.mk (t.val % 2 ^ 32) = F32.mk (t.val % 2 ^ 32 % 2 ^ 32)
    simp only [F32.mk.injEq]
    omega
  · show CharV.mk (t.val % 2 ^ 32) = CharV.mk (t.val % 2 ^ 32 % 2 ^ 32)
    simp only [CharV.mk.injEq]
    omega

/-- Witness for C10 at the f32 bit pattern of 0.9 and at the heart
character, and at a slot with set high bits. -/
theorem C10_low_32_bits_witness :
    (Metadata.pack (F32.mk 0x3F666666)).val < 2 ^ 32 ∧
    (Metadata.pack (CharV.mk 0x2665)).val < 2 ^ 32 ∧
    (Metadata.unpack (Tag.mk (2 ^ 40 + 7)) : F32) =
      Metadata.unpack (Tag.mk ((2 ^ 40 + 7) % 2 ^ 32)) :=
  ⟨C10_low_32_bits.1 (F32.mk 0x3F666666) (by decide),
   C10_low_32_bits.2.1 (CharV.mk 0x2665) (by decide),
   C10_low_32_bits.2.2.1 (Tag.mk (2 ^ 40 + 7))⟩
